import Mathlib

/-!
Verification of the challenge result-reporting state machine
(the ResultReconciler subsystem: the method reportResult of the storage
layer, together with the challenges table schema).

Statuses, outcomes and reports are stored as text columns in the source
schema, so they are modelled as raw strings here; nullable columns become
Option String.  The method reportResult runs in two phases exactly as the
source does: a compute phase that validates the call against a snapshot of
the challenge row and builds the partial update object, and a transaction
phase that re-reads the row, re-checks finalization, and applies the
update object to the fresh row.
-/

namespace IRL

/-- The closed set of outcome values accepted by reportResult
(the validOutcomes set in the source). -/
def validOutcomes : List String := ["host_won", "opponent_won", "draw", "cancelled"]

/-- The reporting-relevant columns of a row of the challenges table.
Columns not read or written by reportResult are omitted except id and
hostId, which the update never touches and the frame claim mentions. -/
structure Challenge where
  id : String
  hostId : String
  status : String
  hostReport : Option String
  opponentReport : Option String
  finalOutcome : Option String
  updatedAt : Nat
deriving DecidableEq, Repr

/-- A row of the challenge-participants table, as read by
getChallengeParticipants.  reportResult only tests existence of a row
with the given userId; role and state are carried for fidelity. -/
structure Participant where
  challengeId : String
  userId : String
  role : String
  state : String
deriving DecidableEq, Repr

/-- The four domain error kinds thrown by reportResult. -/
inductive RError where
  | invalidOutcome
  | notFound
  | notAParticipant
  | alreadyFinalized
deriving DecidableEq, Repr

/-- The partial update object built before the transaction.  A field of
value none is absent from the object and leaves the column unchanged;
report is always present and lands in hostReport when isHost, in
opponentReport otherwise, and updatedAt is always present. -/
structure Updates where
  isHost : Bool
  report : String
  updatedAt : Nat
  status : Option String
  finalOutcome : Option String
deriving DecidableEq, Repr

/-- JavaScript truthiness of a nullable string: null and the empty string
are falsy.  The source tests the other report with a bare if. -/
def truthy : Option String → Bool
  | none => false
  | some s => !(s == "")

/-- The finalized-status test of the source:
status is completed or cancelled. -/
def isFinalized (status : String) : Bool :=
  status == "completed" || status == "cancelled"

/-- The reconciliation rule of reportResult, applied only when the call
changes the stored report of the caller: build the update object from the
snapshot row, the reporting role, the reported outcome and the current
time. -/
def computeUpdates (c : Challenge) (isHost : Bool) (reportedOutcome : String)
    (now : Nat) : Updates :=
  let otherReport := if isHost then c.opponentReport else c.hostReport
  if truthy otherReport then
    if otherReport == some reportedOutcome then
      { isHost := isHost, report := reportedOutcome, updatedAt := now,
        status := some "completed", finalOutcome := some reportedOutcome }
    else
      { isHost := isHost, report := reportedOutcome, updatedAt := now,
        status := some "disputed", finalOutcome := none }
  else
    { isHost := isHost, report := reportedOutcome, updatedAt := now,
      status := if c.status == "open" || c.status == "full"
                then some "in_progress" else none,
      finalOutcome := none }

/-- Apply an update object to a challenge row, as the update statement of
the source does: present fields overwrite the column, absent fields leave
it unchanged; id and hostId are never in the object. -/
def applyUpdates (c : Challenge) (u : Updates) : Challenge :=
  { c with
    hostReport := if u.isHost then some u.report else c.hostReport
    opponentReport := if u.isHost then c.opponentReport else some u.report
    updatedAt := u.updatedAt
    status := u.status.getD c.status
    finalOutcome := match u.finalOutcome with
      | some v => some v
      | none => c.finalOutcome }

/-- The pre-transaction part of reportResult: validate the outcome, the
existence of the challenge, the finalized status, the participant
membership; then either return the snapshot unchanged (idempotent no-op,
Sum.inl) or build the update object (Sum.inr).  The checks appear in the
exact order of the source. -/
def computePhase (challenge : Option Challenge) (participants : List Participant)
    (userId reportedOutcome : String) (now : Nat) :
    Except RError (Sum Challenge Updates) :=
  if !(validOutcomes.contains reportedOutcome) then .error .invalidOutcome
  else
    match challenge with
    | none => .error .notFound
    | some c =>
      if isFinalized c.status then .error .alreadyFinalized
      else
        match participants.find? (fun p => p.userId == userId) with
        | none => .error .notAParticipant
        | some _ =>
          let isHost := c.hostId == userId
          let myReport := if isHost then c.hostReport else c.opponentReport
          if myReport == some reportedOutcome then .ok (.inl c)
          else .ok (.inr (computeUpdates c isHost reportedOutcome now))

/-- The transaction body of reportResult: re-read the row (fresh), fail
NotFound when it is gone, fail AlreadyFinalized when a concurrent
operation finalized it, otherwise apply the update object to the fresh
row and return the updated row. -/
def txnPhase (fresh : Option Challenge) (u : Updates) : Except RError Challenge :=
  match fresh with
  | none => .error .notFound
  | some f =>
    if isFinalized f.status then .error .alreadyFinalized
    else .ok (applyUpdates f u)

/-- reportResult for a single caller with no concurrent writer: the
transaction re-read returns the same row the compute phase saw. -/
def reportResult (challenge : Option Challenge) (participants : List Participant)
    (userId reportedOutcome : String) (now : Nat) : Except RError Challenge :=
  match computePhase challenge participants userId reportedOutcome now with
  | .error e => .error e
  | .ok (.inl c) => .ok c
  | .ok (.inr u) => txnPhase challenge u

/-- The stored row after a sequential reportResult call: a thrown error
aborts the transaction and leaves the row untouched, an idempotent no-op
writes nothing, an accepted call stores the returned row. -/
def runReport (c : Challenge) (participants : List Participant)
    (userId reportedOutcome : String) (now : Nat) : Challenge :=
  match reportResult (some c) participants userId reportedOutcome now with
  | .ok c2 => c2
  | .error _ => c

/-- One call of a sequence: the participant list, caller, outcome and
timestamp of a single reportResult invocation. -/
structure CallInput where
  participants : List Participant
  userId : String
  outcome : String
  now : Nat

/-- The stored row after a sequence of sequential reportResult calls. -/
def runCalls (c : Challenge) (inputs : List CallInput) : Challenge :=
  inputs.foldl (fun s i => runReport s i.participants i.userId i.outcome i.now) c

/-- The data-model invariant: finalOutcome is non-null iff the status is
completed. -/
def invariantFO (c : Challenge) : Prop :=
  c.finalOutcome.isSome = true ↔ c.status = "completed"

instance (c : Challenge) : Decidable (invariantFO c) := by
  unfold invariantFO; infer_instance

/-! Concrete fixtures: one challenge with host h and opponent p, in the
states the witnesses and counterexamples evaluate. -/

/-- The host participant row of the demo challenge. -/
def hostP : Participant := ⟨"c1", "h", "host", "approved"⟩

/-- The opponent participant row of the demo challenge. -/
def oppP : Participant := ⟨"c1", "p", "participant", "approved"⟩

/-- The participant list of the demo challenge. -/
def demoParts : List Participant := [hostP, oppP]

/-- A fresh open challenge: no reports, no final outcome. -/
def cOpen : Challenge := ⟨"c1", "h", "open", none, none, none, 0⟩

/-- After the host reported draw and no opponent report exists. -/
def cInProgress : Challenge := ⟨"c1", "h", "in_progress", some "draw", none, none, 1⟩

/-- Only the opponent has reported host_won so far. -/
def cAwait : Challenge := ⟨"c1", "h", "in_progress", none, some "host_won", none, 1⟩

/-- A completed challenge with a confirmed host_won outcome. -/
def cCompleted : Challenge :=
  ⟨"c1", "h", "completed", some "host_won", some "host_won", some "host_won", 5⟩

/-- A disputed challenge: host said opponent_won, opponent said host_won. -/
def cDisputed : Challenge :=
  ⟨"c1", "h", "disputed", some "opponent_won", some "host_won", none, 3⟩

/-- Only the opponent has reported cancelled so far. -/
def cAwaitCancel : Challenge := ⟨"c1", "h", "in_progress", none, some "cancelled", none, 1⟩

/-- The near-simultaneous schedule of two reportResult calls on the fresh
open demo challenge: the host reports host_won and the opponent reports
host_won; both compute phases read the initial row before either
transaction commits, then the two transactions serialize, host first, the
second transaction re-reading the row committed by the first.  This is
the interleaving the backing store permits under read-committed isolation
and the one the spec concurrency scenario describes. -/
def raceFinal : Except RError Challenge :=
  match computePhase (some cOpen) demoParts "h" "host_won" 1,
        computePhase (some cOpen) demoParts "p" "host_won" 2 with
  | .ok (.inr uA), .ok (.inr uB) =>
    (match txnPhase (some cOpen) uA with
     | .ok c1 => txnPhase (some c1) uB
     | .error e => .error e)
  | _, _ => .error .invalidOutcome

/-- The row the race schedule actually commits: both reports stored as
host_won, yet status in_progress and no finalOutcome (fields in order:
id, hostId, status, hostReport, opponentReport, finalOutcome,
updatedAt). -/
def raceObserved : Challenge :=
  ⟨"c1", "h", "in_progress", some "host_won", some "host_won", none, 2⟩

/-! Helper lemmas shared by the claim theorems. -/

/-- Every member of the outcome enumeration is a non-empty string. -/
theorem validOutcomes_ne_empty {o : String} (hv : o ∈ validOutcomes) : o ≠ "" := by
  simp only [validOutcomes, List.mem_cons, List.mem_singleton, List.not_mem_nil,
    or_false] at hv
  rcases hv with rfl | rfl | rfl | rfl <;> decide

/-- Membership in the outcome enumeration makes the contains test of the
source succeed. -/
theorem validOutcomes_contains {o : String} (hv : o ∈ validOutcomes) :
    validOutcomes.contains o = true := by
  simp only [validOutcomes, List.mem_cons, List.mem_singleton, List.not_mem_nil,
    or_false] at hv
  rcases hv with rfl | rfl | rfl | rfl <;> decide

/-- A call that passes every validation check and changes the stored
report of the caller returns the snapshot row with the computed update
object applied. -/
theorem reportResult_accepted (c : Challenge) (parts : List Participant)
    (u o : String) (now : Nat)
    (hv : o ∈ validOutcomes)
    (hf : isFinalized c.status = false)
    (hp : (parts.find? (fun p => p.userId == u)).isSome = true)
    (hch : (if c.hostId = u then c.hostReport else c.opponentReport) ≠ some o) :
    reportResult (some c) parts u o now =
      .ok (applyUpdates c (computeUpdates c (c.hostId == u) o now)) := by
  rcases hfind : parts.find? (fun p => p.userId == u) with _ | p
  · simp [hfind] at hp
  · simp [reportResult, computePhase, txnPhase, hv, hf, hfind, hch]

/-- A call that passes every validation check and repeats the stored
report of the caller returns the snapshot row unchanged. -/
theorem reportResult_noop (c : Challenge) (parts : List Participant)
    (u o : String) (now : Nat)
    (hv : o ∈ validOutcomes)
    (hf : isFinalized c.status = false)
    (hp : (parts.find? (fun p => p.userId == u)).isSome = true)
    (heq : (if c.hostId = u then c.hostReport else c.opponentReport) = some o) :
    reportResult (some c) parts u o now = .ok c := by
  rcases hfind : parts.find? (fun p => p.userId == u) with _ | p
  · simp [hfind] at hp
  · simp [reportResult, computePhase, hv, hf, hfind, heq]

/-- The stored row after a sequential call is either unchanged or, when
the snapshot was not finalized, the snapshot with the computed update
object applied. -/
theorem runReport_cases (c : Challenge) (parts : List Participant)
    (u o : String) (now : Nat) :
    runReport c parts u o now = c ∨
    (isFinalized c.status = false ∧
      runReport c parts u o now =
        applyUpdates c (computeUpdates c (c.hostId == u) o now)) := by
  by_cases hv : o ∈ validOutcomes
  · by_cases hfin : isFinalized c.status = true
    · left
      simp [runReport, reportResult, computePhase, hv, hfin]
    · rw [Bool.not_eq_true] at hfin
      rcases hfind : parts.find? (fun p => p.userId == u) with _ | p
      · left
        simp [runReport, reportResult, computePhase, hv, hfin, hfind]
      · by_cases heq : (if c.hostId = u then c.hostReport else c.opponentReport)
            = some o
        · left
          simp [runReport, reportResult, computePhase, hv, hfin, hfind, heq]
        · right
          refine ⟨hfin, ?_⟩
          simp [runReport, reportResult, computePhase, txnPhase, hv, hfin,
            hfind, heq]
  · left
    simp [runReport, reportResult, computePhase, hv]

/-- The update object built by the reconciliation rule either is the
completion update for the reported outcome or carries no finalOutcome
and a status among disputed, in_progress, absent. -/
theorem computeUpdates_cases (c : Challenge) (h : Bool) (o : String) (now : Nat) :
    computeUpdates c h o now =
      { isHost := h, report := o, updatedAt := now,
        status := some "completed", finalOutcome := some o } ∨
    ((computeUpdates c h o now).finalOutcome = none ∧
      ((computeUpdates c h o now).status = some "disputed" ∨
       (computeUpdates c h o now).status = some "in_progress" ∨
       (computeUpdates c h o now).status = none)) := by
  unfold computeUpdates
  rcases htr : truthy (if h then c.opponentReport else c.hostReport) with _ | _
  · rcases hop : (c.status == "open" || c.status == "full") with _ | _ <;>
      simp [htr, hop]
  · by_cases heq : (if h then c.opponentReport else c.hostReport) = some o
    · left
      rw [heq] at htr
      simp [htr, heq]
    · right
      simp [htr, heq]

/-- Applying an update object built by the reconciliation rule to a
non-finalized row preserves the finalOutcome-iff-completed invariant. -/
theorem invariantFO_applyUpdates (c : Challenge) (h : Bool) (o : String) (now : Nat)
    (hf : isFinalized c.status = false) (hi : invariantFO c) :
    invariantFO (applyUpdates c (computeUpdates c h o now)) := by
  have hnc : c.status ≠ "completed" := by
    intro hc
    simp [isFinalized, hc] at hf
  have hfon : c.finalOutcome = none := by
    rcases hcf : c.finalOutcome with _ | v
    · rfl
    · exact absurd (hi.mp (by simp [hcf])) hnc
  rcases computeUpdates_cases c h o now with heq | ⟨hfo, hst⟩
  · simp [invariantFO, applyUpdates, heq]
  · rcases hst with h1 | h1 | h1 <;>
      simp [invariantFO, applyUpdates, hfo, h1, hfon, hnc]

/-- A sequential call preserves the finalOutcome-iff-completed
invariant. -/
theorem invariantFO_runReport (c : Challenge) (parts : List Participant)
    (u o : String) (now : Nat) (hi : invariantFO c) :
    invariantFO (runReport c parts u o now) := by
  rcases runReport_cases c parts u o now with heq | ⟨hf, heq⟩
  · rw [heq]; exact hi
  · rw [heq]; exact invariantFO_applyUpdates c _ o now hf hi

/-- The update object records the reporting role it was built for. -/
theorem computeUpdates_isHost (c : Challenge) (h : Bool) (o : String) (now : Nat) :
    (computeUpdates c h o now).isHost = h := by
  rcases htr : truthy (if h then c.opponentReport else c.hostReport) with _ | _ <;>
    rcases heq : ((if h then c.opponentReport else c.hostReport) == some o)
        with _ | _ <;>
      simp [computeUpdates, htr, heq]

/-- A result row of reportResult is the snapshot unchanged or the
snapshot with the computed update object applied. -/
theorem reportResult_ok_cases (c : Challenge) (parts : List Participant)
    (u o : String) (now : Nat) (c2 : Challenge)
    (hok : reportResult (some c) parts u o now = .ok c2) :
    c2 = c ∨ c2 = applyUpdates c (computeUpdates c (c.hostId == u) o now) := by
  by_cases hv : o ∈ validOutcomes
  · by_cases hfin : isFinalized c.status = true
    · simp [reportResult, computePhase, hv, hfin] at hok
    · rw [Bool.not_eq_true] at hfin
      rcases hfind : parts.find? (fun p => p.userId == u) with _ | p
      · simp [reportResult, computePhase, hv, hfin, hfind] at hok
      · by_cases heq : (if c.hostId = u then c.hostReport else c.opponentReport)
            = some o
        · left
          simp [reportResult, computePhase, hv, hfin, hfind, heq] at hok
          exact hok.symm
        · right
          simp [reportResult, computePhase, txnPhase, hv, hfin, hfind, heq]
            at hok
          exact hok.symm
  · simp [reportResult, computePhase, hv] at hok

/-! Claim theorems. -/

/-- Claim C1: a validated call that changes the stored report of the
caller, when the report of the other role is present: if it equals the
reported outcome, the returned challenge is completed with finalOutcome
equal to the reported outcome; if it differs, the returned challenge is
disputed and its finalOutcome stays unset. -/
theorem C1_match_completes_mismatch_disputes
    (c : Challenge) (parts : List Participant) (u o r : String) (now : Nat)
    (hv : o ∈ validOutcomes)
    (hf : isFinalized c.status = false)
    (hp : (parts.find? (fun p => p.userId == u)).isSome = true)
    (hch : (if c.hostId = u then c.hostReport else c.opponentReport) ≠ some o)
    (hoth : (if c.hostId = u then c.opponentReport else c.hostReport) = some r)
    (hr : r ∈ validOutcomes)
    (hfo : c.finalOutcome = none) :
    (r = o → ∃ c2, reportResult (some c) parts u o now = .ok c2 ∧
       c2.status = "completed" ∧ c2.finalOutcome = some o) ∧
    (r ≠ o → ∃ c2, reportResult (some c) parts u o now = .ok c2 ∧
       c2.status = "disputed" ∧ c2.finalOutcome = none) := by
  have hacc := reportResult_accepted c parts u o now hv hf hp hch
  have hre := validOutcomes_ne_empty hr
  constructor
  · rintro rfl
    refine ⟨_, hacc, ?_⟩
    by_cases hh : c.hostId = u
    · rw [if_pos hh] at hoth
      simp [applyUpdates, computeUpdates, hh, hoth, truthy, hre]
    · rw [if_neg hh] at hoth
      simp [applyUpdates, computeUpdates, hh, hoth, truthy, hre]
  · intro hne
    refine ⟨_, hacc, ?_⟩
    by_cases hh : c.hostId = u
    · rw [if_pos hh] at hoth
      simp [applyUpdates, computeUpdates, hh, hoth, truthy, hre, hne, hfo]
    · rw [if_neg hh] at hoth
      simp [applyUpdates, computeUpdates, hh, hoth, truthy, hre, hne, hfo]

/-- Claim C1 witness: on a challenge where only the opponent reported
host_won, a host report of host_won completes the challenge and a host
report of draw disputes it. -/
theorem C1_witness :
    (∃ c2, reportResult (some cAwait) demoParts "h" "host_won" 2 = .ok c2 ∧
       c2.status = "completed" ∧ c2.finalOutcome = some "host_won") ∧
    (∃ c2, reportResult (some cAwait) demoParts "h" "draw" 2 = .ok c2 ∧
       c2.status = "disputed" ∧ c2.finalOutcome = none) :=
  ⟨(C1_match_completes_mismatch_disputes cAwait demoParts "h" "host_won"
      "host_won" 2 (by decide) (by decide) (by decide) (by decide) (by decide)
      (by decide) (by decide)).1 rfl,
   (C1_match_completes_mismatch_disputes cAwait demoParts "h" "draw"
      "host_won" 2 (by decide) (by decide) (by decide) (by decide) (by decide)
      (by decide) (by decide)).2 (by decide)⟩

/-- Claim C2: once a challenge is completed or cancelled, every later
call on it, by any user and with any outcome of the enumeration, fails
with AlreadyFinalized and leaves the stored row untouched. -/
theorem C2_finalized_terminal (c : Challenge) (parts : List Participant)
    (u o : String) (now : Nat)
    (hst : c.status = "completed" ∨ c.status = "cancelled")
    (hv : o ∈ validOutcomes) :
    reportResult (some c) parts u o now = .error .alreadyFinalized ∧
    runReport c parts u o now = c := by
  have hf : isFinalized c.status = true := by
    rcases hst with h | h <;> simp [isFinalized, h]
  have h1 : reportResult (some c) parts u o now = .error .alreadyFinalized := by
    simp [reportResult, computePhase, hv, hf]
  exact ⟨h1, by simp [runReport, h1]⟩

/-- Claim C2 witness: on the completed demo challenge a further opponent
report fails with AlreadyFinalized and changes nothing. -/
theorem C2_witness :
    reportResult (some cCompleted) demoParts "p" "opponent_won" 9 =
      .error .alreadyFinalized ∧
    runReport cCompleted demoParts "p" "opponent_won" 9 = cCompleted :=
  C2_finalized_terminal cCompleted demoParts "p" "opponent_won" 9
    (Or.inl rfl) (by decide)

/-- Claim C3: finalOutcome is non-null iff the status is completed: every
single call, accepted, no-op or failing, preserves the equivalence, and
it holds of every row reached from a fresh challenge by any sequence of
calls. -/
theorem C3_finalOutcome_iff_completed :
    (∀ (c : Challenge) (parts : List Participant) (u o : String) (now : Nat),
       invariantFO c → invariantFO (runReport c parts u o now)) ∧
    (∀ (c0 : Challenge) (inputs : List CallInput),
       c0.status = "open" → c0.finalOutcome = none →
       invariantFO (runCalls c0 inputs)) := by
  suffices h : ∀ (inputs : List CallInput) (c : Challenge), invariantFO c →
      invariantFO (runCalls c inputs) by
    refine ⟨invariantFO_runReport, ?_⟩
    intro c0 inputs hst hfo
    exact h inputs c0 (by simp [invariantFO, hfo, hst])
  intro inputs
  induction inputs with
  | nil =>
      intro c hc
      simpa [runCalls] using hc
  | cons i rest ih =>
      intro c hc
      exact ih (runReport c i.participants i.userId i.outcome i.now)
        (invariantFO_runReport c i.participants i.userId i.outcome i.now hc)

/-- Claim C3 witness: the invariant survives one call on a partially
reported row and the two-call confirmation run from the fresh row. -/
theorem C3_witness :
    invariantFO (runReport cAwait demoParts "h" "host_won" 2) ∧
    invariantFO (runCalls cOpen
      [⟨demoParts, "h", "host_won", 1⟩, ⟨demoParts, "p", "host_won", 2⟩]) :=
  ⟨C3_finalOutcome_iff_completed.1 cAwait demoParts "h" "host_won" 2 (by decide),
   C3_finalOutcome_iff_completed.2 cOpen _ rfl rfl⟩

/-- Claim C4: evaluating the code on the near-simultaneous schedule of
the concurrency scenario.  Both reports are persisted, but the race
leaves the challenge in_progress with no finalOutcome: the second
transaction re-reads the row only to re-check finalization and then
applies an update object computed from its pre-transaction snapshot, so
the claimed deterministic final state (completed, finalOutcome
host_won, decided after observing the first committed effect) is not
reached. -/
theorem C4_race_leaves_in_progress :
    raceFinal = .ok raceObserved ∧
    raceObserved.hostReport = some "host_won" ∧
    raceObserved.opponentReport = some "host_won" ∧
    raceObserved.status = "in_progress" ∧
    raceObserved.status ≠ "completed" ∧
    raceObserved.finalOutcome = none :=
  ⟨rfl, rfl, rfl, rfl, by decide, rfl⟩

/-- Claim C5 counterexample: the completed demo challenge already stores
host_won for the host role, yet the host re-submitting host_won is not an
error-free no-op: the call fails with AlreadyFinalized, because the
finalized check runs before the idempotency check. -/
theorem C5_counterexample :
    cCompleted.hostReport = some "host_won" ∧
    reportResult (some cCompleted) demoParts "h" "host_won" 9 =
      .error .alreadyFinalized :=
  ⟨rfl, rfl⟩

/-- Claim C5 amended: when the call passes validation (outcome in the
enumeration, challenge present and not finalized, caller a participant)
and the stored report of the role of the caller already equals the
reported outcome, the call returns the current row unchanged, with no
error, no status transition and no updatedAt refresh, and stores
nothing; re-submitting the same pair is a no-op whenever it is not
blocked by an earlier finalization, and in the blocked case it still
changes nothing. -/
theorem C5_idempotent_noop (c : Challenge) (parts : List Participant)
    (u o : String) (now : Nat)
    (hv : o ∈ validOutcomes)
    (hf : isFinalized c.status = false)
    (hp : (parts.find? (fun p => p.userId == u)).isSome = true)
    (heq : (if c.hostId = u then c.hostReport else c.opponentReport) = some o) :
    reportResult (some c) parts u o now = .ok c ∧
    runReport c parts u o now = c := by
  have h1 := reportResult_noop c parts u o now hv hf hp heq
  exact ⟨h1, by simp [runReport, h1]⟩

/-- Claim C5 witness: the host re-submitting draw on the in-progress
demo challenge whose host report is already draw is a silent no-op. -/
theorem C5_witness :
    reportResult (some cInProgress) demoParts "h" "draw" 9 = .ok cInProgress ∧
    runReport cInProgress demoParts "h" "draw" 9 = cInProgress :=
  C5_idempotent_noop cInProgress demoParts "h" "draw" 9 (by decide) (by decide)
    (by decide) (by decide)

/-- Claim C6: an accepted call with no report from the other role moves
an open or full challenge to in_progress and leaves any other status
unchanged. -/
theorem C6_absent_other_advances (c : Challenge) (parts : List Participant)
    (u o : String) (now : Nat)
    (hv : o ∈ validOutcomes)
    (hf : isFinalized c.status = false)
    (hp : (parts.find? (fun p => p.userId == u)).isSome = true)
    (hch : (if c.hostId = u then c.hostReport else c.opponentReport) ≠ some o)
    (habs : (if c.hostId = u then c.opponentReport else c.hostReport) = none) :
    ∃ c2, reportResult (some c) parts u o now = .ok c2 ∧
      c2.status = (if c.status = "open" ∨ c.status = "full"
                   then "in_progress" else c.status) := by
  have hacc := reportResult_accepted c parts u o now hv hf hp hch
  refine ⟨_, hacc, ?_⟩
  by_cases hh : c.hostId = u
  · rw [if_pos hh] at habs
    by_cases h1 : c.status = "open" <;> by_cases h2 : c.status = "full" <;>
      simp [applyUpdates, computeUpdates, hh, habs, truthy, h1, h2]
  · rw [if_neg hh] at habs
    by_cases h1 : c.status = "open" <;> by_cases h2 : c.status = "full" <;>
      simp [applyUpdates, computeUpdates, hh, habs, truthy, h1, h2]

/-- Claim C6 witness: the host changing the report on the in-progress
demo challenge with no opponent report leaves the status in_progress. -/
theorem C6_witness :
    ∃ c2, reportResult (some cInProgress) demoParts "h" "host_won" 9 = .ok c2 ∧
      c2.status = (if cInProgress.status = "open" ∨ cInProgress.status = "full"
                   then "in_progress" else cInProgress.status) :=
  C6_absent_other_advances cInProgress demoParts "h" "host_won" 9 (by decide)
    (by decide) (by decide) (by decide) (by decide)

/-- Claim C7: a disputed challenge is not blocked as finalized: a
validated call that changes the report of the caller so that it now
matches the report of the other role completes the challenge and sets
finalOutcome. -/
theorem C7_disputed_self_correct (c : Challenge) (parts : List Participant)
    (u o : String) (now : Nat)
    (hd : c.status = "disputed")
    (hv : o ∈ validOutcomes)
    (hp : (parts.find? (fun p => p.userId == u)).isSome = true)
    (hch : (if c.hostId = u then c.hostReport else c.opponentReport) ≠ some o)
    (hoth : (if c.hostId = u then c.opponentReport else c.hostReport) = some o) :
    ∃ c2, reportResult (some c) parts u o now = .ok c2 ∧
      c2.status = "completed" ∧ c2.finalOutcome = some o := by
  have hf : isFinalized c.status = false := by simp [isFinalized, hd]
  have hacc := reportResult_accepted c parts u o now hv hf hp hch
  have hre := validOutcomes_ne_empty hv
  refine ⟨_, hacc, ?_⟩
  by_cases hh : c.hostId = u
  · rw [if_pos hh] at hoth
    simp [applyUpdates, computeUpdates, hh, hoth, truthy, hre]
  · rw [if_neg hh] at hoth
    simp [applyUpdates, computeUpdates, hh, hoth, truthy, hre]

/-- Claim C7 witness: on the disputed demo challenge the host changes
the report to host_won, matching the opponent, and the challenge
completes. -/
theorem C7_witness :
    ∃ c2, reportResult (some cDisputed) demoParts "h" "host_won" 9 = .ok c2 ∧
      c2.status = "completed" ∧ c2.finalOutcome = some "host_won" :=
  C7_disputed_self_correct cDisputed demoParts "h" "host_won" 9 rfl (by decide)
    (by decide) (by decide) (by decide)

/-- Claim C8 counterexample: the user x is not in the participant list
of the completed demo challenge, yet the call with a valid outcome fails
with AlreadyFinalized, not NotAParticipant: the finalized check runs
before the participant check. -/
theorem C8_counterexample :
    demoParts.find? (fun p => p.userId == "x") = none ∧
    reportResult (some cCompleted) demoParts "x" "draw" 9 =
      .error .alreadyFinalized ∧
    reportResult (some cCompleted) demoParts "x" "draw" 9 ≠
      .error .notAParticipant :=
  ⟨rfl, rfl, fun h => RError.noConfusion (Except.error.inj h)⟩

/-- Claim C8 amended: on an existing challenge whose status is neither
completed nor cancelled, a caller who is not in the participant list
fails with NotAParticipant for every valid outcome and no field changes;
on a finalized challenge the same call fails with AlreadyFinalized
instead, also changing nothing. -/
theorem C8_not_participant (c : Challenge) (parts : List Participant)
    (u o : String) (now : Nat)
    (hv : o ∈ validOutcomes)
    (hf : isFinalized c.status = false)
    (hp : parts.find? (fun p => p.userId == u) = none) :
    reportResult (some c) parts u o now = .error .notAParticipant ∧
    runReport c parts u o now = c := by
  have h1 : reportResult (some c) parts u o now = .error .notAParticipant := by
    simp [reportResult, computePhase, hv, hf, hp]
  exact ⟨h1, by simp [runReport, h1]⟩

/-- Claim C8 witness: the outsider x reporting draw on the fresh open
demo challenge fails with NotAParticipant and changes nothing. -/
theorem C8_witness :
    reportResult (some cOpen) demoParts "x" "draw" 9 =
      .error .notAParticipant ∧
    runReport cOpen demoParts "x" "draw" 9 = cOpen :=
  C8_not_participant cOpen demoParts "x" "draw" 9 (by decide) (by decide)
    (by decide)

/-- Claim C9 frame: a call that returns a row changes at most the report
field of the role of the caller together with status, finalOutcome and
updatedAt: the report of the other role is never changed, and neither
are id and hostId. -/
theorem C9_frame (c : Challenge) (parts : List Participant)
    (u o : String) (now : Nat) (c2 : Challenge)
    (hok : reportResult (some c) parts u o now = .ok c2) :
    c2.id = c.id ∧ c2.hostId = c.hostId ∧
    (c.hostId = u → c2.opponentReport = c.opponentReport) ∧
    (c.hostId ≠ u → c2.hostReport = c.hostReport) := by
  rcases reportResult_ok_cases c parts u o now c2 hok with rfl | rfl
  · exact ⟨rfl, rfl, fun _ => rfl, fun _ => rfl⟩
  · refine ⟨rfl, rfl, ?_, ?_⟩
    · intro hh
      simp [applyUpdates, computeUpdates_isHost, hh]
    · intro hh
      simp [applyUpdates, computeUpdates_isHost, hh]

/-- The row returned by the accepted host report of the C9 witness. -/
def c9After : Challenge := ⟨"c1", "h", "in_progress", some "host_won", none, none, 1⟩

/-- Claim C9 witness: the accepted host report on the fresh open demo
challenge leaves id, hostId and the opponent report unchanged. -/
theorem C9_witness :
    c9After.id = cOpen.id ∧ c9After.hostId = cOpen.hostId ∧
    (cOpen.hostId = "h" → c9After.opponentReport = cOpen.opponentReport) ∧
    (cOpen.hostId ≠ "h" → c9After.hostReport = cOpen.hostReport) :=
  C9_frame cOpen demoParts "h" "host_won" 1 c9After (by rfl)

/-- Claim C10: reportResult never sets the status to cancelled: a stored
row whose status is not cancelled never becomes cancelled through a
call, and when the second role reports the outcome value cancelled that
the first role already reported, the challenge completes with
finalOutcome cancelled rather than moving to status cancelled. -/
theorem C10_never_cancels :
    (∀ (c : Challenge) (parts : List Participant) (u o : String) (now : Nat),
       c.status ≠ "cancelled" →
       (runReport c parts u o now).status ≠ "cancelled") ∧
    (∀ (c : Challenge) (parts : List Participant) (u : String) (now : Nat),
       isFinalized c.status = false →
       (parts.find? (fun p => p.userId == u)).isSome = true →
       (if c.hostId = u then c.hostReport else c.opponentReport) ≠
         some "cancelled" →
       (if c.hostId = u then c.opponentReport else c.hostReport) =
         some "cancelled" →
       ∃ c2, reportResult (some c) parts u "cancelled" now = .ok c2 ∧
         c2.status = "completed" ∧ c2.finalOutcome = some "cancelled") := by
  constructor
  · intro c parts u o now hnc
    rcases runReport_cases c parts u o now with heq | ⟨hf, heq⟩
    · rw [heq]
      exact hnc
    · rw [heq]
      rcases computeUpdates_cases c (c.hostId == u) o now with hcu | ⟨hfo, hst⟩
      · simp [applyUpdates, hcu]
      · rcases hst with h1 | h1 | h1 <;> simp [applyUpdates, h1, hnc]
  · intro c parts u now hf hp hch hoth
    have hv : ("cancelled" : String) ∈ validOutcomes := by decide
    have hacc := reportResult_accepted c parts u "cancelled" now hv hf hp hch
    refine ⟨_, hacc, ?_⟩
    by_cases hh : c.hostId = u
    · rw [if_pos hh] at hoth
      simp [applyUpdates, computeUpdates, hh, hoth, truthy]
    · rw [if_neg hh] at hoth
      simp [applyUpdates, computeUpdates, hh, hoth, truthy]

/-- Claim C10 witness: a host report of draw on the fresh open demo
challenge does not cancel it, and a host report of cancelled matching
the stored opponent report completes the challenge with finalOutcome
cancelled. -/
theorem C10_witness :
    (runReport cOpen demoParts "h" "draw" 3).status ≠ "cancelled" ∧
    (∃ c2, reportResult (some cAwaitCancel) demoParts "h" "cancelled" 9 =
        .ok c2 ∧ c2.status = "completed" ∧ c2.finalOutcome = some "cancelled") :=
  ⟨C10_never_cancels.1 cOpen demoParts "h" "draw" 3 (by decide),
   C10_never_cancels.2 cAwaitCancel demoParts "h" 9 (by decide) (by decide)
     (by decide) (by decide)⟩

end IRL
